import Mathlib

/-!
Shallow embedding of `tensorflow_addons/losses/giou_loss.py` and
`tensorflow_addons/activations/rrelu.py`.

Tensors of box rows are modelled as `List Box` with exact rational
coordinates; elementwise tensor arithmetic becomes per-row rational
arithmetic.  The two divisions performed by the loss are modelled in
`Option ℚ`: division by zero yields `none` (standing for the non-finite
value a floating-point division by zero produces), and `none` propagates
through subsequent arithmetic, mirroring how `inf`/`NaN` propagate.
All functions are total, mirroring the fact that the numeric path of the
code raises no exception.
-/

/-- Model of one row of a `[N, 4]` box tensor: the four coordinates
`b[:, 0] .. b[:, 3]` of `_giou`. -/
structure Box where
  c0 : ℚ
  c1 : ℚ
  c2 : ℚ
  c3 : ℚ
deriving DecidableEq, Repr

/-- Source `b1_ymin = tf.minimum(b1[:, 0], b1[:, 2])`, per row. -/
def boxYmin (b : Box) : ℚ := min b.c0 b.c2

/-- Source `b1_xmin = tf.minimum(b1[:, 1], b1[:, 3])`, per row. -/
def boxXmin (b : Box) : ℚ := min b.c1 b.c3

/-- Source `b1_ymax = tf.maximum(b1[:, 0], b1[:, 2])`, per row. -/
def boxYmax (b : Box) : ℚ := max b.c0 b.c2

/-- Source `b1_xmax = tf.maximum(b1[:, 1], b1[:, 3])`, per row. -/
def boxXmax (b : Box) : ℚ := max b.c1 b.c3

/-- Source `b1_area = (b1_ymax - b1_ymin) * (b1_xmax - b1_xmin)`: the
first box's area, computed from its own normalized coordinates. -/
def b1Area (b1 : Box) : ℚ := (boxYmax b1 - boxYmin b1) * (boxXmax b1 - boxXmin b1)

/-- Source `b2_area = (b2_ymax - b2_ymin) * (b2_xmax - b1_xmin)`,
transcribed exactly as written: the second factor subtracts `b1_xmin`
(the FIRST box's xmin), not `b2_xmin`. -/
def b2Area (b1 b2 : Box) : ℚ := (boxYmax b2 - boxYmin b2) * (boxXmax b2 - boxXmin b1)

/-- Per-row condition of `tf.where(tf.logical_or(b1_area < 0, b2_area < 0))`:
the row is flagged illegal. -/
def illegalRow (b1 b2 : Box) : Bool := decide (b1Area b1 < 0 ∨ b2Area b1 b2 < 0)

/-- Source `intersect_area`, per row: intersection box from maxima of the
mins and minima of the maxes, with both extents clamped at zero. -/
def intersectArea (b1 b2 : Box) : ℚ :=
  max 0 (min (boxYmax b1) (boxYmax b2) - max (boxYmin b1) (boxYmin b2)) *
    max 0 (min (boxXmax b1) (boxXmax b2) - max (boxXmin b1) (boxXmin b2))

/-- Source `union_area = b1_area + b2_area - intersect_area`, per row. -/
def unionArea (b1 b2 : Box) : ℚ := b1Area b1 + b2Area b1 b2 - intersectArea b1 b2

/-- Division as performed by the tensor engine, with division by zero
producing the non-finite marker `none` instead of a rational. -/
def divQ (a b : ℚ) : Option ℚ := if b = 0 then none else some (a / b)

/-- Subtraction lifted to the non-finite marker: a non-finite operand
propagates, mirroring `inf`/`NaN` propagation. -/
def osub (a b : Option ℚ) : Option ℚ :=
  match a, b with
  | some x, some y => some (x - y)
  | _, _ => none

/-- Source `iou = intersect_area / union_area`, per row, before the
gather/scatter that overwrites illegal rows. -/
def iouRaw (b1 b2 : Box) : Option ℚ := divQ (intersectArea b1 b2) (unionArea b1 b2)

/-- Enclosing-box area: source `enclose_area = tf.maximum(0, bc_ymax -
bc_ymin) * tf.maximum(0, bc_xmax - bc_xmin)`, per row. -/
def encloseArea (b1 b2 : Box) : ℚ :=
  max 0 (max (boxYmax b1) (boxYmax b2) - min (boxYmin b1) (boxYmin b2)) *
    max 0 (max (boxXmax b1) (boxXmax b2) - min (boxXmin b1) (boxXmin b2))

/-- Row indexes flagged by `tf.where(tf.logical_or(b1_area < 0, b2_area < 0))`:
positions of the rows whose computed areas make them illegal. -/
def illegalAreaIndexes (rows : List (Box × Box)) : List ℕ :=
  (List.range rows.length).filter fun i =>
    match rows[i]? with
    | some r => illegalRow r.1 r.2
    | none => false

/-- Row indexes flagged by `tf.where(tf.logical_and(b1_area >= 0, b2_area >= 0))`. -/
def validAreaIndexes (rows : List (Box × Box)) : List ℕ :=
  (List.range rows.length).filter fun i =>
    match rows[i]? with
    | some r => !illegalRow r.1 r.2
    | none => false

/-- Model of `tf.dynamic_stitch`: each `(index, value)` pair writes its
value at its index into a result of length `n`; later writes overwrite
earlier ones; never-written slots are unspecified, modelled as `none`. -/
def dynamicStitch (n : ℕ) (pairs : List (ℕ × Option ℚ)) : List (Option ℚ) :=
  pairs.foldl (fun acc p => acc.set p.1 p.2) (List.replicate n none)

/-- The iou tensor after the source's gather/scatter: `tf.gather` pulls
the valid rows' iou values, `tf.zeros` supplies a zero per illegal row,
and `tf.dynamic_stitch` merges them back by row index. -/
def iouStitched (rows : List (Box × Box)) : List (Option ℚ) :=
  let iouL := rows.map fun r => iouRaw r.1 r.2
  dynamicStitch rows.length
    ((validAreaIndexes rows).map (fun i => (i, iouL.getD i none)) ++
      (illegalAreaIndexes rows).map (fun i => (i, some (0 : ℚ))))

/-- Per-row value of the source's final line
`giou = iou - (enclose_area - union_area) / enclose_area`, given the
already-stitched iou value of the row. -/
def giouRow (iou : Option ℚ) (b1 b2 : Box) : Option ℚ :=
  osub iou (divQ (encloseArea b1 b2 - unionArea b1 b2) (encloseArea b1 b2))

/-- Embedding of the whole `_giou(b1, b2)` body. -/
def _giou (b1s b2s : List Box) : List (Option ℚ) :=
  let rows := b1s.zip b2s
  List.zipWith (fun iou r => giouRow iou r.1 r.2) (iouStitched rows) rows

/-- Embedding of `giou_loss(y_true, y_pred)`: it calls
`_giou(y_pred, y_true)` (prediction first) and returns `1 - giou`. -/
def giou_loss (y_true y_pred : List Box) : List (Option ℚ) :=
  (_giou y_pred y_true).map (Option.map fun g => 1 - g)

/-- Closed form of one row of `_giou`: the stitched iou of the row (zero
when the row is illegal, the raw ratio otherwise) fed into the final
giou line. -/
def giouRowClosed (b1 b2 : Box) : Option ℚ :=
  giouRow (if illegalRow b1 b2 then some 0 else iouRaw b1 b2) b1 b2

lemma foldl_set_length (ps : List (ℕ × Option ℚ)) (acc : List (Option ℚ)) :
    (ps.foldl (fun a p => a.set p.1 p.2) acc).length = acc.length := by
  induction ps generalizing acc with
  | nil => rfl
  | cons p t ih => simpa [List.foldl_cons, List.length_set] using ih (acc.set p.1 p.2)

lemma foldl_set_getElem?_not_mem (ps : List (ℕ × Option ℚ)) (acc : List (Option ℚ))
    (i : ℕ) (h : i ∉ ps.map Prod.fst) :
    (ps.foldl (fun a p => a.set p.1 p.2) acc)[i]? = acc[i]? := by
  induction ps generalizing acc with
  | nil => rfl
  | cons p t ih =>
    simp only [List.map_cons, List.mem_cons, not_or] at h
    rw [List.foldl_cons, ih (acc.set p.1 p.2) h.2,
      List.getElem?_set_ne (fun e => h.1 e.symm)]

lemma foldl_set_getElem?_mem (ps : List (ℕ × Option ℚ)) (acc : List (Option ℚ))
    (i : ℕ) (v : Option ℚ) (hlen : i < acc.length) (hmem : i ∈ ps.map Prod.fst)
    (hval : ∀ p ∈ ps, p.1 = i → p.2 = v) :
    (ps.foldl (fun a p => a.set p.1 p.2) acc)[i]? = some v := by
  induction ps generalizing acc with
  | nil => simp at hmem
  | cons p t ih =>
    rw [List.foldl_cons]
    by_cases ht : i ∈ t.map Prod.fst
    · exact ih (acc.set p.1 p.2) (by simpa [List.length_set] using hlen) ht
        (fun q hq => hval q (List.mem_cons_of_mem p hq))
    · have hp : p.1 = i := by
        simp only [List.map_cons, List.mem_cons] at hmem
        exact ((hmem.resolve_right ht)).symm
      have hv : p.2 = v := hval p (List.mem_cons_self p t) hp
      rw [foldl_set_getElem?_not_mem t _ i ht, hp, hv,
        List.getElem?_set_eq_of_lt v hlen]

lemma mem_validAreaIndexes (rows : List (Box × Box)) (i : ℕ) :
    i ∈ validAreaIndexes rows ↔
      i < rows.length ∧ ∀ h : i < rows.length, illegalRow (rows[i]).1 (rows[i]).2 = false := by
  unfold validAreaIndexes
  rw [List.mem_filter, List.mem_range]
  constructor
  · rintro ⟨h1, h2⟩
    refine ⟨h1, fun h => ?_⟩
    rw [List.getElem?_eq_getElem h1] at h2
    simpa using h2
  · rintro ⟨h1, h2⟩
    refine ⟨h1, ?_⟩
    rw [List.getElem?_eq_getElem h1]
    simpa using h2 h1

lemma mem_illegalAreaIndexes (rows : List (Box × Box)) (i : ℕ) :
    i ∈ illegalAreaIndexes rows ↔
      i < rows.length ∧ ∀ h : i < rows.length, illegalRow (rows[i]).1 (rows[i]).2 = true := by
  unfold illegalAreaIndexes
  rw [List.mem_filter, List.mem_range]
  constructor
  · rintro ⟨h1, h2⟩
    refine ⟨h1, fun h => ?_⟩
    rw [List.getElem?_eq_getElem h1] at h2
    simpa using h2
  · rintro ⟨h1, h2⟩
    refine ⟨h1, ?_⟩
    rw [List.getElem?_eq_getElem h1]
    simpa using h2 h1

/-- The gather/scatter inside `_giou` is equivalent to a per-row
selection: each row keeps its position; illegal rows read exactly zero,
valid rows read their raw iou ratio. -/
lemma iouStitched_eq (rows : List (Box × Box)) :
    iouStitched rows =
      rows.map fun r => if illegalRow r.1 r.2 then some 0 else iouRaw r.1 r.2 := by
  apply List.ext_getElem?
  intro i
  rw [List.getElem?_map]
  unfold iouStitched dynamicStitch
  by_cases h : i < rows.length
  · rw [List.foldl_append]
    rw [List.getElem?_eq_getElem h]
    by_cases hr : illegalRow (rows[i]).1 (rows[i]).2 = true
    · have hmem : i ∈ ((illegalAreaIndexes rows).map fun j => ((j : ℕ), (some (0:ℚ) : Option ℚ))).map Prod.fst := by
        simp only [List.map_map]
        simpa using (mem_illegalAreaIndexes rows i).mpr ⟨h, fun _ => hr⟩
      rw [foldl_set_getElem?_mem _ _ i (some 0)
        (by rw [foldl_set_length, List.length_replicate]; exact h) hmem
        (by rintro ⟨j, w⟩ hq he; simp only [List.mem_map] at hq
            obtain ⟨a, _, ha⟩ := hq
            exact (Prod.mk.injEq _ _ _ _).mp ha |>.2.symm)]
      simp [hr]
    · have hb : i ∉ ((illegalAreaIndexes rows).map fun j => ((j : ℕ), (some (0:ℚ) : Option ℚ))).map Prod.fst := by
        simp only [List.map_map]
        intro hmem
        have : i ∈ illegalAreaIndexes rows := by simpa using hmem
        exact hr (((mem_illegalAreaIndexes rows i).mp this).2 h)
      rw [foldl_set_getElem?_not_mem _ _ i hb]
      have hmem : i ∈ ((validAreaIndexes rows).map fun j =>
          ((j : ℕ), (rows.map fun r => iouRaw r.1 r.2).getD j none)).map Prod.fst := by
        simp only [List.map_map]
        have : i ∈ validAreaIndexes rows :=
          (mem_validAreaIndexes rows i).mpr ⟨h, fun _ => Bool.eq_false_iff.mpr hr⟩
        simpa using this
      rw [foldl_set_getElem?_mem _ _ i ((rows.map fun r => iouRaw r.1 r.2).getD i none)
        (by rw [List.length_replicate]; exact h) hmem
        (by rintro ⟨j, w⟩ hq he; simp only [List.mem_map] at hq
            obtain ⟨a, _, ha⟩ := hq
            obtain ⟨h1, h2⟩ := (Prod.mk.injEq _ _ _ _).mp ha
            subst he; rw [← h2, h1])]
      rw [List.getD_eq_getElem?_getD, List.getElem?_map, List.getElem?_eq_getElem h]
      simp [hr]
  · have h1 : rows[i]? = none := List.getElem?_eq_none (Nat.le_of_not_lt h)
    rw [h1]
    apply List.getElem?_eq_none
    rw [List.foldl_append] at *
    rw [foldl_set_length, foldl_set_length, List.length_replicate]
    exact Nat.le_of_not_lt h

/-- Length of the stitched iou tensor equals the number of rows. -/
lemma length_iouStitched (rows : List (Box × Box)) :
    (iouStitched rows).length = rows.length := by
  unfold iouStitched dynamicStitch
  rw [foldl_set_length, List.length_replicate]

/-- Pointwise semantics of `_giou`: row `i` of the output is the closed
per-row formula applied to row `i` of the zipped inputs. -/
lemma _giou_eq (b1s b2s : List Box) :
    _giou b1s b2s = (b1s.zip b2s).map fun r => giouRowClosed r.1 r.2 := by
  unfold giouRowClosed
  show List.zipWith (fun iou r => giouRow iou r.1 r.2)
      (iouStitched (b1s.zip b2s)) (b1s.zip b2s) = _
  rw [iouStitched_eq]
  apply List.ext_getElem?
  intro i
  rw [List.getElem?_zipWith, List.getElem?_map, List.getElem?_map]
  cases (b1s.zip b2s)[i]? <;> simp

/-- Pointwise semantics of `giou_loss`: note the argument swap, the
source calls `_giou(y_pred, y_true)`, and then returns `1 - giou`. -/
lemma giou_loss_eq (y_true y_pred : List Box) :
    giou_loss y_true y_pred =
      (y_pred.zip y_true).map fun r =>
        (giouRowClosed r.1 r.2).map fun g => 1 - g := by
  unfold giou_loss
  rw [_giou_eq, List.map_map]
  rfl

/-- Length of the loss vector: one entry per (zipped) input row. -/
lemma length_giou_loss (y_true y_pred : List Box) :
    (giou_loss y_true y_pred).length = min y_pred.length y_true.length := by
  rw [giou_loss_eq, List.length_map, List.length_zip]

/-- Model of the external `tf.random.Generator` (not part of this
repository): a pseudo-random source whose behavior is a deterministic
function of its integer state. -/
structure Gen where
  state : ℕ
deriving DecidableEq, Repr

/-- Model of `Generator.reset_from_seed`: the state is replaced by a
value derived solely from the seed. -/
def Gen.resetFromSeed (_g : Gen) (seed : ℕ) : Gen := ⟨seed⟩

/-- Fixed pseudo-random stream in `[0, 1)`, a deterministic function of
the generator state and the sample position. -/
def unitStream (s i : ℕ) : ℚ :=
  (((s + i + 1) * 2654435761) % 4294967296 : ℕ) / (4294967296 : ℚ)

/-- Model of `Generator.uniform(shape, minval, maxval)`: `n` samples in
`[lo, hi)` read off the stream at the current state; the state advances. -/
def Gen.uniformList (g : Gen) (n : ℕ) (lo hi : ℚ) : List ℚ × Gen :=
  ((List.range n).map fun i => lo + (hi - lo) * unitStream g.state i,
    ⟨g.state + n⟩)

/-- Embedding of `rrelu(x, lower, upper, training, seed, gs)`.  `x` is
the flattened input tensor; `training` is the resolved training flag
(the source's `None` default resolves to the external backend learning
phase); `gs` is the generator in use (the source's `None` default
resolves to the external global generator).  Training mode resets the
generator from the seed when one is given, samples one `alpha` per
element, and applies `tf.where(x >= 0, x, alpha * x)`; inference mode
uses the fixed `alpha = (lower + upper) / 2`.  Returns the output
together with the generator state after the call. -/
def rrelu (x : List ℚ) (lower upper : ℚ) (training : Bool) (seed : Option ℕ)
    (gs : Gen) : List ℚ × Gen :=
  if training then
    let g1 := match seed with
      | some s => gs.resetFromSeed s
      | none => gs
    let ag := g1.uniformList x.length lower upper
    (List.zipWith (fun xv av => if 0 ≤ xv then xv else av * xv) x ag.1, ag.2)
  else
    (x.map fun xv => if 0 ≤ xv then xv else ((lower + upper) / 2) * xv, gs)

/-- Model of tensor dtypes relevant to the loss. -/
inductive DType
  | float16
  | float32
  | float64
deriving DecidableEq, Repr

/-- Dtype of the `tf.zeros([tf.shape(illegal_area_indexes)[0], 1],
tf.float64)` tensor in `_giou`: float64, with no dependence on the
dtype of the boxes. -/
def zerosDType : DType := DType.float64

/-- Model of `tf.dynamic_stitch`'s dtype rule (external framework
semantics): all data parts must share one dtype, otherwise the op is
rejected with a type error. -/
def stitchDType (parts : List DType) : Except String DType :=
  match parts with
  | [] => Except.error "dynamic_stitch needs data"
  | p :: ps =>
    if ps.all fun q => q == p then Except.ok p
    else Except.error "dynamic_stitch dtype mismatch"

/-- Dtype flow of `_giou` on box tensors of dtype `d`: every
elementwise op preserves `d`, `tf.gather` keeps the iou dtype `d`, and
`tf.dynamic_stitch` merges the gathered iou with the float64 zeros. -/
def _giouDType (d : DType) : Except String DType :=
  (stitchDType [d, zerosDType]).map fun stitched => stitched

/-- Dtype flow of `giou_loss`: `y_true` is cast to `y_pred`'s dtype, so
`_giou` runs entirely at `y_pred`'s dtype. -/
def giou_lossDType (_ytrueD ypredD : DType) : Except String DType :=
  _giouDType ypredD

/-- Model of the external Keras loss-reduction policies. -/
inductive Reduction
  | nonePolicy
  | sumPolicy
  | sumOverBatchSize
deriving DecidableEq, Repr

/-- Configuration of a `GIOULoss` object: the fields set by `__init__`. -/
structure GIOULoss where
  reduction : Reduction
  name : String

/-- The `__init__` defaults: `reduction=tf.keras.losses.Reduction.NONE`
and `name='giou_loss'`. -/
def GIOULoss.defaultInit : GIOULoss := ⟨Reduction.nonePolicy, "giou_loss"⟩

/-- `GIOULoss.call(y_true, y_pred)` delegates to `giou_loss`. -/
def GIOULoss.call (_self : GIOULoss) (y_true y_pred : List Box) :
    List (Option ℚ) := giou_loss y_true y_pred

/-- Sum of a loss vector, propagating the non-finite marker. -/
def osum (l : List (Option ℚ)) : Option ℚ :=
  l.foldl (fun a b =>
    match a, b with
    | some x, some y => some (x + y)
    | _, _ => none) (some 0)

/-- Model of the external Keras `Loss.__call__` (not repository code):
computes `call` and collapses it per the configured reduction policy;
the NONE policy returns the per-row vector unchanged. -/
def GIOULoss.applyLoss (self : GIOULoss) (y_true y_pred : List Box) :
    List (Option ℚ) :=
  match self.reduction with
  | Reduction.nonePolicy => self.call y_true y_pred
  | Reduction.sumPolicy => [osum (self.call y_true y_pred)]
  | Reduction.sumOverBatchSize =>
    [(osum (self.call y_true y_pred)).bind fun s =>
      divQ s ((self.call y_true y_pred).length : ℚ)]

/-- Claim C1 (refuted by the code): the second box's area is NOT computed
from its own coordinates.  At `b1 = (2,2,3,3)`, `b2 = (0,0,1,1)` the code's
`b2_area` is `-1` while the box's own symmetric area `(ymax-ymin)*(xmax-xmin)`
is `1`, and the code's union area is `0` while the symmetric union
`area(B1) + area(B2) - intersection` is `2`. -/
theorem c1_b2_area_not_own_coordinates :
    b2Area ⟨2, 2, 3, 3⟩ ⟨0, 0, 1, 1⟩ = -1 ∧
    b1Area ⟨0, 0, 1, 1⟩ = 1 ∧
    unionArea ⟨2, 2, 3, 3⟩ ⟨0, 0, 1, 1⟩ = 0 ∧
    b1Area ⟨2, 2, 3, 3⟩ + b1Area ⟨0, 0, 1, 1⟩ -
      intersectArea ⟨2, 2, 3, 3⟩ ⟨0, 0, 1, 1⟩ = 2 := by
  refine ⟨?_, ?_, ?_, ?_⟩ <;>
    norm_num [b1Area, b2Area, unionArea, intersectArea,
      boxYmin, boxXmin, boxYmax, boxXmax, min_def, max_def]

/-- Claim C2 (refuted by the code): on `y_true=[[0,0,1,1]]`,
`y_pred=[[2,2,3,3]]` the loss is `2`, not the claimed `16/9`: the
transcribed `b2_area` is `-1`, the row is flagged illegal, its iou is
forced to `0`, the union area degenerates to `0`, and the loss becomes
`1 - (0 - (9-0)/9) = 2`. -/
theorem c2_disjoint_boxes_loss_is_two :
    giou_loss [⟨0, 0, 1, 1⟩] [⟨2, 2, 3, 3⟩] = [some 2] ∧ (2 : ℚ) ≠ 16 / 9 := by
  constructor
  · rw [giou_loss_eq]
    norm_num [List.zip, giouRowClosed, giouRow, iouRaw, divQ, osub, illegalRow,
      b1Area, b2Area, intersectArea, unionArea, encloseArea,
      boxYmin, boxXmin, boxYmax, boxXmax, min_def, max_def]
  · norm_num

/-- Claim C3 (confirmed): for every input, the iou tensor rebuilt by the
gather/`dynamic_stitch` keeps every row at its original position; rows
whose computed areas are negative carry exactly `0`, all other rows carry
their raw iou ratio.  The function is total: no input raises. -/
theorem c3_illegal_rows_forced_to_zero (rows : List (Box × Box)) :
    iouStitched rows =
      rows.map fun r => if illegalRow r.1 r.2 then some 0 else iouRaw r.1 r.2 :=
  iouStitched_eq rows

/-- Claim C7 (confirmed): a box compared against itself gives loss
exactly `0` (iou `1`, enclosing area equal to union area). -/
theorem c7_coincident_box_loss_zero :
    giou_loss [⟨0, 0, 1, 1⟩] [⟨0, 0, 1, 1⟩] = [some 0] := by
  rw [giou_loss_eq]
  norm_num [List.zip, giouRowClosed, giouRow, iouRaw, divQ, osub, illegalRow,
    b1Area, b2Area, intersectArea, unionArea, encloseArea,
    boxYmin, boxXmin, boxYmax, boxXmax, min_def, max_def]

/-- Claim C8 (confirmed): for every pair of rows the enclosing box has
nonnegative extents, so the clamped enclosing-area expression of the code
equals the plain width times height. -/
theorem c8_enclose_clamp_is_identity (b1 b2 : Box) :
    encloseArea b1 b2 =
      (max (boxYmax b1) (boxYmax b2) - min (boxYmin b1) (boxYmin b2)) *
        (max (boxXmax b1) (boxXmax b2) - min (boxXmin b1) (boxXmin b2)) := by
  have hy : min (boxYmin b1) (boxYmin b2) ≤ max (boxYmax b1) (boxYmax b2) :=
    le_trans (min_le_left _ _)
      (le_trans (min_le_max (a := b1.c0) (b := b1.c2)) (le_max_left _ _))
  have hx : min (boxXmin b1) (boxXmin b2) ≤ max (boxXmax b1) (boxXmax b2) :=
    le_trans (min_le_left _ _)
      (le_trans (min_le_max (a := b1.c1) (b := b1.c3)) (le_max_left _ _))
  unfold encloseArea
  rw [max_eq_right (sub_nonneg.mpr hy), max_eq_right (sub_nonneg.mpr hx)]

/-- Claim C6 (confirmed): the two divisions are unguarded.  (i) With
`y_pred=[[0,0,1,0]]`, `y_true=[[0,1,0,1]]` the row is valid, its union
area is `0`, and the division-by-zero marker propagates to the returned
loss instead of being replaced by a special value.  (ii) With both boxes
`[0,0,0,0]` the enclosing area is `0` and the marker again propagates.
(iii) On the row `b1=(2,2,3,3)`, `b2=(0,0,1,1)` the degenerate-box guard
replaces only the iou ratio (raw iou is the division-by-zero marker, the
stitched iou is exactly `0`), while the enclosing-area division is still
applied to the guarded row, giving a finite giou of `-1`. -/
theorem c6_divisions_unguarded :
    (illegalRow ⟨0, 0, 1, 0⟩ ⟨0, 1, 0, 1⟩ = false ∧
      unionArea ⟨0, 0, 1, 0⟩ ⟨0, 1, 0, 1⟩ = 0 ∧
      encloseArea ⟨0, 0, 1, 0⟩ ⟨0, 1, 0, 1⟩ = 1 ∧
      giou_loss [⟨0, 1, 0, 1⟩] [⟨0, 0, 1, 0⟩] = [none]) ∧
    (encloseArea ⟨0, 0, 0, 0⟩ ⟨0, 0, 0, 0⟩ = 0 ∧
      giou_loss [⟨0, 0, 0, 0⟩] [⟨0, 0, 0, 0⟩] = [none]) ∧
    (illegalRow ⟨2, 2, 3, 3⟩ ⟨0, 0, 1, 1⟩ = true ∧
      iouRaw ⟨2, 2, 3, 3⟩ ⟨0, 0, 1, 1⟩ = none ∧
      iouStitched [(⟨2, 2, 3, 3⟩, ⟨0, 0, 1, 1⟩)] = [some 0] ∧
      giouRowClosed ⟨2, 2, 3, 3⟩ ⟨0, 0, 1, 1⟩ = some (-1)) := by
  refine ⟨⟨?_, ?_, ?_, ?_⟩, ⟨?_, ?_⟩, ⟨?_, ?_, ?_, ?_⟩⟩
  · norm_num [illegalRow, b1Area, b2Area,
      boxYmin, boxXmin, boxYmax, boxXmax, min_def, max_def]
  · norm_num [unionArea, b1Area, b2Area, intersectArea,
      boxYmin, boxXmin, boxYmax, boxXmax, min_def, max_def]
  · norm_num [encloseArea, boxYmin, boxXmin, boxYmax, boxXmax, min_def, max_def]
  · rw [giou_loss_eq]
    norm_num [List.zip, giouRowClosed, giouRow, iouRaw, divQ, osub, illegalRow,
      b1Area, b2Area, intersectArea, unionArea, encloseArea,
      boxYmin, boxXmin, boxYmax, boxXmax, min_def, max_def]
  · norm_num [encloseArea, boxYmin, boxXmin, boxYmax, boxXmax, min_def, max_def]
  · rw [giou_loss_eq]
    norm_num [List.zip, giouRowClosed, giouRow, iouRaw, divQ, osub, illegalRow,
      b1Area, b2Area, intersectArea, unionArea, encloseArea,
      boxYmin, boxXmin, boxYmax, boxXmax, min_def, max_def]
  · norm_num [illegalRow, b1Area, b2Area,
      boxYmin, boxXmin, boxYmax, boxXmax, min_def, max_def]
  · norm_num [iouRaw, divQ, intersectArea, unionArea, b1Area, b2Area,
      boxYmin, boxXmin, boxYmax, boxXmax, min_def, max_def]
  · rw [iouStitched_eq]
    norm_num [iouRaw, divQ, intersectArea, unionArea, illegalRow, b1Area, b2Area,
      boxYmin, boxXmin, boxYmax, boxXmax, min_def, max_def]
  · norm_num [giouRowClosed, giouRow, iouRaw, divQ, osub, illegalRow,
      b1Area, b2Area, intersectArea, unionArea, encloseArea,
      boxYmin, boxXmin, boxYmax, boxXmax, min_def, max_def]

/-- Claim C4 (confirmed): in inference mode every output element equals
the input element when it is non-negative, and the input element times
the fixed midpoint `(lower + upper) / 2` when it is negative; no
randomness and no generator state change is involved. -/
theorem c4_inference_mode_midpoint (x : List ℚ) (lower upper : ℚ)
    (seed : Option ℕ) (gs : Gen) (i : ℕ) :
    ((rrelu x lower upper false seed gs).1)[i]? =
      x[i]?.map fun xv => if 0 ≤ xv then xv else xv * ((lower + upper) / 2) := by
  simp only [rrelu, if_neg (Bool.false_ne_true), List.getElem?_map]
  cases x[i]? with
  | none => rfl
  | some xv => simp [mul_comm]

/-- Claim C5 (confirmed): in training mode with a given seed the output
is reproducible: it does not depend on the incoming generator state (the
state is reset from the seed before sampling), so a second call with the
same arguments — including the call made with the generator state left
behind by the first call — produces the identical output. -/
theorem c5_training_seed_deterministic (x : List ℚ) (lower upper : ℚ)
    (s : ℕ) (g g2 : Gen) :
    (rrelu x lower upper true (some s) g).1 =
        (rrelu x lower upper true (some s) g2).1 ∧
      (rrelu x lower upper true (some s)
          ((rrelu x lower upper true (some s) g).2)).1 =
        (rrelu x lower upper true (some s) g).1 := by
  constructor
  · simp [rrelu, Gen.resetFromSeed, Gen.uniformList]
  · simp [rrelu, Gen.resetFromSeed, Gen.uniformList]

/-- Claim C9 (confirmed): the zeros substituted for illegal rows are
float64 regardless of the input dtype, so the `dynamic_stitch` merge
type-checks only when the boxes are float64; float64 inputs pass, while
e.g. float32 inputs are rejected with a dtype error instead of
producing a loss. -/
theorem c9_zeros_dtype_mismatch :
    zerosDType = DType.float64 ∧
    (∀ ytrueD : DType, giou_lossDType ytrueD DType.float64 =
      Except.ok DType.float64) ∧
    (∀ ytrueD : DType, giou_lossDType ytrueD DType.float32 =
      Except.error "dynamic_stitch dtype mismatch") ∧
    (∀ ytrueD ypredD : DType,
      (∃ d, giou_lossDType ytrueD ypredD = Except.ok d) ↔
        ypredD = DType.float64) := by
  refine ⟨rfl, fun _ => rfl, fun _ => rfl, fun _ ypredD => ?_⟩
  cases ypredD <;>
    simp [giou_lossDType, _giouDType, stitchDType, zerosDType, Except.map]

/-- Claim C10 (confirmed): a `GIOULoss` built with the `__init__`
defaults carries the NONE reduction policy, and applying it returns the
per-row vector of `giou_loss` unchanged — one entry per input row, not a
scalar. -/
theorem c10_default_reduction_is_none (y_true y_pred : List Box)
    (h : y_true.length = y_pred.length) :
    GIOULoss.defaultInit.reduction = Reduction.nonePolicy ∧
    GIOULoss.applyLoss GIOULoss.defaultInit y_true y_pred =
      giou_loss y_true y_pred ∧
    (GIOULoss.applyLoss GIOULoss.defaultInit y_true y_pred).length =
      y_true.length := by
  refine ⟨rfl, rfl, ?_⟩
  show (giou_loss y_true y_pred).length = y_true.length
  rw [length_giou_loss, ← h, min_self]

/-- Witness for C10 at a concrete input of one row each. -/
theorem c10_default_reduction_is_none_witness :
    ([(⟨0, 0, 1, 1⟩ : Box)]).length = ([(⟨0, 0, 2, 2⟩ : Box)]).length ∧
    (GIOULoss.defaultInit.reduction = Reduction.nonePolicy ∧
      GIOULoss.applyLoss GIOULoss.defaultInit [⟨0, 0, 1, 1⟩] [⟨0, 0, 2, 2⟩] =
        giou_loss [⟨0, 0, 1, 1⟩] [⟨0, 0, 2, 2⟩] ∧
      (GIOULoss.applyLoss GIOULoss.defaultInit
        [⟨0, 0, 1, 1⟩] [⟨0, 0, 2, 2⟩]).length = 1) :=
  ⟨rfl, c10_default_reduction_is_none [⟨0, 0, 1, 1⟩] [⟨0, 0, 2, 2⟩] rfl⟩
